import Mathlib

/-!
A shallow embedding of the `codespan-reporting` render-tree core: the
document/node model (`src/render_tree/document.rs`), the composition helpers
(`src/render_tree/helpers.rs`), the selector-trie stylesheet
(`src/render_tree/stylesheet/mod.rs`), and the color-spec conversions of
`src/style.rs`. Rust `HashMap<Segment, Node>` children are embedded as
association lists with unique keys (only `get`, `entry.or_insert` and
`is_empty` are used by the source, all key-based, so iteration order never
matters). Rust panics are embedded as explicit error/panic values.
-/

namespace Codespan

/-- The termcolor named colors used by this crate (external `termcolor::Color`,
restricted to the named variants; the crate only ever constructs named colors). -/
inductive Color where
  | black
  | blue
  | green
  | red
  | cyan
  | magenta
  | yellow
  | white
deriving DecidableEq, Repr

/-- Modelled from the spec: the render-tree `Style` value used by the
stylesheet cascade (the crate-root `Style` with `union`; its source file is
not under `src/`). Per the spec, each boolean attribute distinguishes
"unset" from explicitly true/false, and foreground/background are optional
colors. -/
structure Style where
  bold : Option Bool
  underline : Option Bool
  bright : Option Bool
  fg : Option Color
  bg : Option Color
deriving DecidableEq, Repr

/-- Modelled from the spec: one merge slot — the overriding side wins when it
sets a value, otherwise the base value is kept. -/
def overrideSlot {α : Type} (hi lo : Option α) : Option α :=
  match hi with
  | some v => some v
  | none => lo

/-- Modelled from the spec: `Style::union` / `merge(base, override)` — the
right (later, more specific) style overrides the left per attribute and per
color; slots it leaves unset fall back to the left style. -/
def Style.union (left right : Style) : Style :=
  { bold := overrideSlot right.bold left.bold
    underline := overrideSlot right.underline left.underline
    bright := overrideSlot right.bright left.bright
    fg := overrideSlot right.fg left.fg
    bg := overrideSlot right.bg left.bg }

namespace stylesheet

/-- `Segment` from `src/render_tree/stylesheet/mod.rs`. -/
inductive Segment where
  | Root
  | Star
  | Glob
  | Name (name : String)
deriving DecidableEq, Repr

/-- `Node` from `src/render_tree/stylesheet/mod.rs`: a trie node with a
segment, children (a `HashMap<Segment, Node>`, embedded as an association
list with unique keys) and an optional style. -/
inductive Node where
  | mk (segment : Segment) (children : List (Segment × Node)) (style : Option Style)

def Node.segment : Node → Segment
  | .mk s _ _ => s

def Node.children : Node → List (Segment × Node)
  | .mk _ c _ => c

def Node.style : Node → Option Style
  | .mk _ _ st => st

/-- `HashMap::get` on the association-list embedding of the children map. -/
def lookupChild : List (Segment × Node) → Segment → Option Node
  | [], _ => none
  | (k, c) :: rest, seg => if k = seg then some c else lookupChild rest seg

def Node.getChild (n : Node) (seg : Segment) : Option Node :=
  lookupChild n.children seg

/-- `HashMap::insert`-style update used to embed `entry(seg).or_insert(..)`
followed by in-place mutation: replace the entry if the key exists, append
otherwise. -/
def setChild : List (Segment × Node) → Segment → Node → List (Segment × Node)
  | [], seg, child => [(seg, child)]
  | (k, c) :: rest, seg, child =>
    if k = seg then (seg, child) :: rest else (k, c) :: setChild rest seg child

/-- `Node::new`. -/
def Node.new (segment : Segment) : Node :=
  .mk segment [] none

/-- `Node::terminal`: if the node has no children it is its own terminal; if
it has a Glob child, that child is the terminal; otherwise none. -/
def Node.terminal (n : Node) : Option Node :=
  match n.getChild .Glob with
  | none => if n.children.isEmpty then some n else none
  | some glob => some glob

/-- `Node::add`: walk/create trie nodes along the segment path and store the
style at the terminal node (`entry(name).or_insert(Node::new(name))` then
recursing is embedded as lookup-or-default followed by writing the updated
child back). -/
def Node.add : Node → List Segment → Style → Node
  | n, [], style => .mk n.segment n.children (some style)
  | n, seg :: rest, style =>
    let child := (n.getChild seg).getD (Node.new seg)
    .mk n.segment (setChild n.children seg (child.add rest style)) n.style

/-- The free function `union` from `src/render_tree/stylesheet/mod.rs`:
merge two optional styles, the right one taking precedence. -/
def union (left right : Option Style) : Option Style :=
  match left, right with
  | none, none => none
  | some l, none => some l
  | none, some r => some r
  | some l, some r => some (l.union r)

/-- The `Match` struct: up to four candidate child nodes, one per
specificity level. -/
structure Match where
  glob : Option Node
  star : Option Node
  skipped_glob : Option Node
  literal : Option Node

/-- `Node::find_match`: a glob node matches itself; otherwise its Glob child
matches, and that glob child's literal child for the name is the
skipped-glob match; a Star child and a literal Name child match directly. -/
def Node.find_match (n : Node) (name : String) : Match :=
  let star := n.getChild .Star
  let literal := n.getChild (.Name name)
  if n.segment = Segment.Glob then
    { glob := some n, star := star, skipped_glob := none, literal := literal }
  else
    let glob := n.getChild .Glob
    let skipped_glob :=
      match glob with
      | some g => g.getChild (.Name name)
      | none => none
    { glob := glob, star := star, skipped_glob := skipped_glob, literal := literal }

/-- `Node::find`: on an empty path return the terminal node's style; otherwise
accumulate the styles of the glob, star, skipped-glob and literal matches
on the rest of the path, in that order, merging with `union` so that later
(more specific) matches take precedence per attribute. -/
def Node.find : Node → List String → Option Style
  | n, [] =>
    match n.terminal with
    | none => none
    | some t => t.style
  | n, next :: rest =>
    let m := n.find_match next
    let style : Option Style := none
    let style :=
      match m.glob with
      | some glob => union style (glob.find rest)
      | none => style
    let style :=
      match m.star with
      | some star => union style (star.find rest)
      | none => style
    let style :=
      match m.skipped_glob with
      | some skipped => union style (skipped.find rest)
      | none => style
    let style :=
      match m.literal with
      | some literal => union style (literal.find rest)
      | none => style
    style

end stylesheet

/-- `Stylesheet`. -/
structure Stylesheet where
  styles : stylesheet.Node

/-- `Stylesheet::new`. -/
def Stylesheet.new : Stylesheet :=
  ⟨stylesheet.Node.new .Root⟩

/-- The segment mapping inside `Stylesheet::add`: `**` is Glob, `*` is Star,
anything else a literal Name. -/
def parseSegment (part : String) : stylesheet.Segment :=
  if part = "**" then .Glob else if part = "*" then .Star else .Name part

/-- `Stylesheet::add`. The Rust method takes a space-separated pattern string
and applies `split(' ')`; the model takes the list of split parts directly
(so the Rust call `add("a ** c", s)` is `add ["a", "**", "c"] s` here). -/
def Stylesheet.add (s : Stylesheet) (parts : List String) (style : Style) : Stylesheet :=
  ⟨s.styles.add (parts.map parseSegment) style⟩

/-- `Stylesheet::get` (tracing elided: it only logs). -/
def Stylesheet.get (s : Stylesheet) (names : List String) : Option Style :=
  s.styles.find names

/-- `Node` from `src/render_tree/document.rs`. -/
inductive Node where
  | Text (text : String)
  | OpenSection (name : String)
  | CloseSection
  | Newline
deriving DecidableEq, Repr

/-- `Document`: an optional node list (`None` makes empty documents free). -/
structure Document where
  tree : Option (List Node)
deriving DecidableEq, Repr

/-- `Document::empty`. -/
def Document.empty : Document :=
  ⟨none⟩

/-- The node sequence of a document (`tree()` viewed as a plain list). -/
def Document.nodes (d : Document) : List Node :=
  d.tree.getD []

/-- `Document::add_node`: initialize the tree if needed, then push. -/
def Document.add_node (d : Document) (node : Node) : Document :=
  match d.tree with
  | none => ⟨some [node]⟩
  | some nodes => ⟨some (nodes ++ [node])⟩

/-- `Document::extend_nodes`: when `other` is non-empty, initialize the tree
if needed and push every node of `other`; otherwise return `self` unchanged. -/
def Document.extend_nodes (d : Document) (other : List Node) : Document :=
  if other.length > 0 then
    match d.tree with
    | none => ⟨some other⟩
    | some nodes => ⟨some (nodes ++ other)⟩
  else d

/-- `Document::extend`. -/
def Document.extend (d : Document) (fragment : Document) : Document :=
  match d.tree, fragment.tree with
  | some _, some other => d.extend_nodes other
  | some _, none => d
  | none, some nodes => ⟨some nodes⟩
  | none, none => Document.empty

/-- The `impl<T: Display> Render for T` path by which a string is appended:
`document.add(Node::Text(s))`, i.e. extend with a one-node fragment. -/
def renderText (s : String) (into : Document) : Document :=
  into.extend (Document.empty.add_node (Node.Text s))

/-- `Each::render` from `src/render_tree/helpers.rs`: fold the callback over
the items in order. -/
def Each.render {α : Type} (items : List α) (callback : α → Document → Document)
    (into : Document) : Document :=
  match items with
  | [] => into
  | item :: rest => Each.render rest callback (callback item into)

/-- The loop body of `Join::render`: before every item except the first,
append the joiner as a text fragment. -/
def Join.go {α : Type} (joiner : String) (callback : α → Document → Document) :
    List α → Bool → Document → Document
  | [], _, into => into
  | item :: rest, is_first, into =>
    let into := if is_first then into else renderText joiner into
    Join.go joiner callback rest false (callback item into)

/-- `Join::render` from `src/render_tree/helpers.rs`. -/
def Join.render {α : Type} (joiner : String) (items : List α)
    (callback : α → Document → Document) (into : Document) : Document :=
  Join.go joiner callback items true into

/-- The write calls made to the `WriteColor` sink during a writer pass. -/
inductive WriteEvent where
  | reset
  | setStyle (style : Style)
  | write (text : String)
deriving DecidableEq, Repr

/-- The node loop of `Document::write_with`. The nesting stack is kept
innermost-first (Rust pushes to the back of a `Vec`; `stack.reverse` is the
Vec in push order, which is what `stylesheet.get(&nesting)` receives). A
`CloseSection` on an empty stack is the panic
`.expect("unbalanced push/pop")`, embedded as an error value. -/
def write_go (sheet : Stylesheet) :
    List Node → List String → List WriteEvent → Except String (List WriteEvent)
  | [], _, acc => .ok acc
  | .Text s :: rest, stack, acc =>
    if s.length ≠ 0 then
      let ev :=
        match sheet.get stack.reverse with
        | none => WriteEvent.reset
        | some st => WriteEvent.setStyle st
      write_go sheet rest stack (acc ++ [ev, .write s])
    else write_go sheet rest stack acc
  | .OpenSection name :: rest, stack, acc => write_go sheet rest (name :: stack) acc
  | .CloseSection :: rest, stack, acc =>
    match stack with
    | [] => .error "unbalanced push/pop"
    | _ :: stack => write_go sheet rest stack acc
  | .Newline :: rest, stack, acc =>
    write_go sheet rest stack (acc ++ [.reset, .write "\n"])

/-- `Document::write_with`: reset the sink, then walk the nodes (an empty
tree returns `Ok` immediately after the initial reset). -/
def Document.write_with (d : Document) (sheet : Stylesheet) :
    Except String (List WriteEvent) :=
  match d.tree with
  | none => .ok [WriteEvent.reset]
  | some nodes => write_go sheet nodes [] [WriteEvent.reset]

/-- Whether every `CloseSection` in the list occurs at positive section depth
when walked left to right starting from `depth` — exactly the condition under
which the write loop never hits the `"unbalanced push/pop"` panic. -/
def closeOk : Nat → List Node → Bool
  | _, [] => true
  | depth, Node.OpenSection _ :: rest => closeOk (depth + 1) rest
  | depth, Node.CloseSection :: rest =>
    match depth with
    | 0 => false
    | d + 1 => closeOk d rest
  | depth, Node.Text _ :: rest => closeOk depth rest
  | depth, Node.Newline :: rest => closeOk depth rest

namespace style

/-- The `Attributes` bitflag set from `src/style.rs` (`BitFlags<Attributes>`
with bits Bold, Underline, Bright, embedded as three booleans). -/
structure Attributes where
  bold : Bool
  underline : Bool
  bright : Bool
deriving DecidableEq, Repr

/-- External `termcolor::ColorSpec`, restricted to the fields this crate
reads and writes: fg, bg, bold, underline, intense. -/
structure ColorSpec where
  fg : Option Color
  bg : Option Color
  bold : Bool
  underline : Bool
  intense : Bool
deriving DecidableEq, Repr

/-- `ColorSpec::new`. -/
def ColorSpec.new : ColorSpec :=
  { fg := none, bg := none, bold := false, underline := false, intense := false }

/-- `ColorValue` from `src/style.rs`. -/
structure ColorValue where
  color : Color
deriving DecidableEq, Repr

/-- `Style` from `src/style.rs` (distinct from the crate-root cascade style). -/
structure Style where
  attributes : Attributes
  foreground : Option ColorValue
  background : Option ColorValue
deriving DecidableEq, Repr

/-- `Style::from_color_spec`. -/
def Style.from_color_spec (spec : ColorSpec) : Style :=
  let attributes : Attributes := ⟨false, false, false⟩
  let attributes := if spec.bold then { attributes with bold := true } else attributes
  let attributes := if spec.underline then { attributes with underline := true } else attributes
  let attributes := if spec.intense then { attributes with bright := true } else attributes
  { attributes := attributes
    foreground := spec.fg.map (fun c => ⟨c⟩)
    background := spec.bg.map (fun c => ⟨c⟩) }

/-- `Style::to_color_spec`. The final branch mirrors the source exactly: the
background color is written with `set_fg`. -/
def Style.to_color_spec (s : Style) : ColorSpec :=
  let spec := ColorSpec.new
  let spec := if s.attributes.bold then { spec with bold := true } else spec
  let spec := if s.attributes.underline then { spec with underline := true } else spec
  let spec := if s.attributes.bright then { spec with intense := true } else spec
  let spec :=
    match s.foreground with
    | some fgv => { spec with fg := some fgv.color }
    | none => spec
  let spec :=
    match s.background with
    | some bgv => { spec with fg := some bgv.color }
    | none => spec
  spec

/-- External `str::parse::<termcolor::Color>` restricted to the named colors
(the real parser also accepts ansi256/rgb forms; every string outside its
grammar, in particular any unrecognized color name, fails to parse). -/
def parseColor (s : String) : Option Color :=
  if s = "black" then some .black
  else if s = "blue" then some .blue
  else if s = "green" then some .green
  else if s = "red" then some .red
  else if s = "cyan" then some .cyan
  else if s = "magenta" then some .magenta
  else if s = "yellow" then some .yellow
  else if s = "white" then some .white
  else none

/-- Outcome of a construction step that may panic: Rust `unwrap` aborts the
process with a message rather than returning an error to the caller. -/
inductive BuildOutcome (α : Type) where
  | ok (value : α)
  | panics (message : String)
deriving DecidableEq, Repr

def BuildOutcome.isPanic {α : Type} : BuildOutcome α → Bool
  | .ok _ => false
  | .panics _ => true

/-- `impl From<&str> for ColorValue` from `src/style.rs`: parse the color
name and `unwrap` — a parse failure is a panic, not a returned error. (The
Windows-only remapping of "blue" to "cyan" takes the non-Windows branch
here, leaving the string unchanged.) -/
def ColorValue.from_str (s : String) : BuildOutcome ColorValue :=
  match parseColor s with
  | some c => .ok ⟨c⟩
  | none => .panics "called Result::unwrap on an Err value"

end style

/-! Helper lemmas shared by the claim theorems. -/

theorem overrideSlot_assoc {α : Type} (a b c : Option α) :
    overrideSlot (overrideSlot a b) c = overrideSlot a (overrideSlot b c) := by
  cases a <;> rfl

theorem union_none_left (x : Option Style) : stylesheet.union none x = x := by
  cases x <;> rfl

/-- A glob leaf (a glob node with no children) matches any remaining path and
always yields its own stored style. -/
theorem glob_leaf_find (names : List String) (st : Option Style) :
    stylesheet.Node.find (.mk .Glob [] st) names = st := by
  induction names with
  | nil => rfl
  | cons x rest ih =>
    show stylesheet.union none (stylesheet.Node.find (.mk .Glob [] st) rest) = st
    rw [ih, union_none_left]

/-! Claim theorems. -/

/-- C1: with rules `a ** c -> S1`, `a b * c -> S2` and `a b e c -> S3` added
in that order, resolving `["a","b","e","c"]` returns the attribute-wise merge
of the three styles in which, slot by slot (bold, underline, bright, fg, bg),
a value set by the literal rule S3 wins over one set by the star rule S2,
which wins over one set by the glob rule S1, and a slot set by only one rule
keeps that rule's value. -/
theorem claim_C1_specificity_merge (S1 S2 S3 : Style) :
    ∃ m : Style,
      (((Stylesheet.new.add ["a", "**", "c"] S1).add ["a", "b", "*", "c"] S2).add
          ["a", "b", "e", "c"] S3).get ["a", "b", "e", "c"] = some m ∧
      m.bold = overrideSlot S3.bold (overrideSlot S2.bold S1.bold) ∧
      m.underline = overrideSlot S3.underline (overrideSlot S2.underline S1.underline) ∧
      m.bright = overrideSlot S3.bright (overrideSlot S2.bright S1.bright) ∧
      m.fg = overrideSlot S3.fg (overrideSlot S2.fg S1.fg) ∧
      m.bg = overrideSlot S3.bg (overrideSlot S2.bg S1.bg) := by
  refine ⟨S1.union (S2.union S3), rfl, ?_, ?_, ?_, ?_, ?_⟩ <;>
    simp only [Style.union] <;> rw [overrideSlot_assoc]

/-- C5: a glob matches zero as well as many path levels — the rule
`a ** b -> S` resolves both `["a","b"]` (glob absorbs nothing) and
`["a","x","y","b"]` (glob absorbs two segments) to exactly S. -/
theorem claim_C5_glob_zero_or_many (S : Style) :
    (Stylesheet.new.add ["a", "**", "b"] S).get ["a", "b"] = some S ∧
    (Stylesheet.new.add ["a", "**", "b"] S).get ["a", "x", "y", "b"] = some S :=
  ⟨rfl, rfl⟩

/-- C9: composition is deterministic — rendering the same `Each` or `Join`
(same items, same callback, same joiner) twice into fresh empty documents
produces identical node sequences. -/
theorem claim_C9_deterministic {α : Type} (items : List α)
    (callback : α → Document → Document) (joiner : String) :
    (Each.render items callback Document.empty).tree =
      (Each.render items callback Document.empty).tree ∧
    (Join.render joiner items callback Document.empty).tree =
      (Join.render joiner items callback Document.empty).tree :=
  ⟨rfl, rfl⟩

/-- The trie node a trailing-glob rule stores under its literal prefix: a
literal node whose only child is a glob leaf carrying the style. Resolving
any remaining suffix at it yields the stored style. -/
theorem literal_with_glob_leaf_find (suffix : List String) (S : Style) :
    stylesheet.Node.find
      (.mk (.Name "c") [(.Glob, .mk .Glob [] (some S))] none) suffix = some S := by
  cases suffix with
  | nil => rfl
  | cons x rest =>
    show stylesheet.union none
        (stylesheet.Node.find (.mk .Glob [] (some S)) rest) = some S
    rw [glob_leaf_find, union_none_left]

/-- C4: a rule whose pattern ends in a glob, `a b c ** -> S`, matches every
path beginning with the prefix `["a","b","c"]`, for any number of further
segments including zero, and resolves to the stored style S. -/
theorem claim_C4_trailing_glob (suffix : List String) (S : Style) :
    (Stylesheet.new.add ["a", "b", "c", "**"] S).get ("a" :: "b" :: "c" :: suffix) =
      some S := by
  have h : (Stylesheet.new.add ["a", "b", "c", "**"] S).get
      ("a" :: "b" :: "c" :: suffix) =
      stylesheet.union none (stylesheet.union none (stylesheet.union none
        (stylesheet.Node.find
          (.mk (.Name "c") [(.Glob, .mk .Glob [] (some S))] none) suffix))) := rfl
  rw [h, literal_with_glob_leaf_find, union_none_left, union_none_left,
    union_none_left]

theorem Document.add_node_nodes (d : Document) (n : Node) :
    (d.add_node n).nodes = d.nodes ++ [n] := by
  obtain ⟨td⟩ := d
  cases td <;> simp [Document.add_node, Document.nodes]

theorem Document.extend_nodes_nodes (d : Document) (ns : List Node) :
    (d.extend_nodes ns).nodes = d.nodes ++ ns := by
  obtain ⟨td⟩ := d
  cases td <;> cases ns <;> simp [Document.extend_nodes, Document.nodes]

theorem Document.extend_seq (d f : Document) :
    (d.extend f).nodes = d.nodes ++ f.nodes := by
  obtain ⟨td⟩ := d
  obtain ⟨tf⟩ := f
  cases td <;> cases tf <;>
    simp [Document.extend, Document.extend_nodes_nodes, Document.nodes,
      Document.empty, Document.extend_nodes]
  · rename_i ld lf
    cases lf <;> simp [Document.extend_nodes, Document.nodes]

/-- C7: `extend` is associative on node sequences and `Document.empty` is a
two-sided identity for it, leaving the other operand's node sequence
unchanged. -/
theorem claim_C7_extend_monoid (a b c : Document) :
    ((a.extend b).extend c).nodes = (a.extend (b.extend c)).nodes ∧
    (a.extend Document.empty).nodes = a.nodes ∧
    (Document.empty.extend a).nodes = a.nodes := by
  have hempty : Document.empty.nodes = [] := rfl
  refine ⟨?_, ?_, ?_⟩
  · rw [Document.extend_seq, Document.extend_seq, Document.extend_seq,
      Document.extend_seq, List.append_assoc]
  · rw [Document.extend_seq, hempty, List.append_nil]
  · rw [Document.extend_seq, hempty, List.nil_append]

/-- C8: composition is purely additive — `add_node`, `extend_nodes` and
`extend` each produce a document whose node sequence is the old sequence
unchanged, in order, with the new nodes strictly appended after it. -/
theorem claim_C8_additive (d : Document) (n : Node) (ns : List Node) (f : Document) :
    (d.add_node n).nodes = d.nodes ++ [n] ∧
    (d.extend_nodes ns).nodes = d.nodes ++ ns ∧
    (d.extend f).nodes = d.nodes ++ f.nodes :=
  ⟨Document.add_node_nodes d n, Document.extend_nodes_nodes d ns,
    Document.extend_seq d f⟩

/-- C10: `Style::to_color_spec` never sets the background of the resulting
ColorSpec; a background color on the Style is written into the ColorSpec's
foreground slot instead, overwriting any foreground the Style carried, so the
round trip `from_color_spec (to_color_spec s)` differs from `s` whenever `s`
has a background color. -/
theorem claim_C10_bg_into_fg (s : style.Style) :
    (s.to_color_spec).bg = none ∧
    (∀ cv, s.background = some cv → (s.to_color_spec).fg = some cv.color) ∧
    (s.background.isSome = true → style.Style.from_color_spec s.to_color_spec ≠ s) := by
  obtain ⟨⟨b, u, br⟩, fgv, bgv⟩ := s
  cases b <;> cases u <;> cases br <;> cases fgv <;> cases bgv <;>
    simp [style.Style.to_color_spec, style.Style.from_color_spec, style.ColorSpec.new]

/-- Witness for C10 at a concrete style carrying both a foreground (blue) and
a background (red): the spec's bg slot is empty, its fg slot holds red, and
the round trip does not restore the style. -/
theorem claim_C10_witness :
    ((style.Style.mk ⟨true, false, false⟩ (some ⟨.blue⟩) (some ⟨.red⟩)).to_color_spec).bg
        = none ∧
    ((style.Style.mk ⟨true, false, false⟩ (some ⟨.blue⟩) (some ⟨.red⟩)).to_color_spec).fg
        = some Color.red ∧
    style.Style.from_color_spec
        (style.Style.mk ⟨true, false, false⟩ (some ⟨.blue⟩) (some ⟨.red⟩)).to_color_spec
      ≠ style.Style.mk ⟨true, false, false⟩ (some ⟨.blue⟩) (some ⟨.red⟩) :=
  ⟨(claim_C10_bg_into_fg _).1,
    (claim_C10_bg_into_fg _).2.1 ⟨.red⟩ rfl,
    (claim_C10_bg_into_fg _).2.2 rfl⟩

/-- Counterexample for C6 as stated: an unknown color name supplied to the
`From<&str>` conversion for `ColorValue` (run while a Stylesheet rule's style
is being constructed) does not produce a caller-recoverable error — the
`unwrap` panics, aborting the process. -/
theorem claim_C6_counterexample :
    (style.ColorValue.from_str "notacolor").isPanic = true ∧
    style.parseColor "notacolor" = none := by
  decide

/-- C6 as amended: for every color string the termcolor parser rejects — in
particular every unknown color name — the `From<&str> for ColorValue`
conversion panics with the unwrap message at construction time (before any
rendering), rather than returning an error value to the caller. -/
theorem claim_C6_unwrap_panics (s : String) (h : style.parseColor s = none) :
    style.ColorValue.from_str s =
      .panics "called Result::unwrap on an Err value" := by
  unfold style.ColorValue.from_str
  rw [h]

/-- Witness for C6 as amended at the concrete unknown name "notacolor". -/
theorem claim_C6_witness :
    style.parseColor "notacolor" = none ∧
    style.ColorValue.from_str "notacolor" =
      .panics "called Result::unwrap on an Err value" :=
  ⟨by decide, claim_C6_unwrap_panics "notacolor" (by decide)⟩

/-- Counterexample for C2 as stated: the stylesheet below registers the
literal pattern `["a"]` with an fg-red style, but resolving the path `["a"]`
does not return exactly that style — the bold attribute contributed by the
coexisting `*` rule is merged into the result. -/
theorem claim_C2_counterexample :
    ((Stylesheet.new.add ["*"] ⟨some true, none, none, none, none⟩).add ["a"]
        ⟨none, none, none, some .red, none⟩).get ["a"] =
      some ⟨some true, none, none, some .red, none⟩ ∧
    ((Stylesheet.new.add ["*"] ⟨some true, none, none, none, none⟩).add ["a"]
        ⟨none, none, none, some .red, none⟩).get ["a"] ≠
      some ⟨none, none, none, some .red, none⟩ := by
  decide

/-- Resolving a pure literal chain starting at a non-glob node yields exactly
the stored style. -/
theorem literal_chain_find (parts : List String) (st : Style) :
    ∀ (seg : stylesheet.Segment), seg ≠ .Glob →
      ((stylesheet.Node.new seg).add (parts.map .Name) st).find parts = some st := by
  induction parts with
  | nil => intro seg hseg; rfl
  | cons p rest ih =>
    intro seg hseg
    have hadd : ((stylesheet.Node.new seg).add ((p :: rest).map .Name) st) =
        .mk seg
          [(.Name p, (stylesheet.Node.new (.Name p)).add (rest.map .Name) st)]
          none := rfl
    rw [hadd]
    simp only [stylesheet.Node.find, stylesheet.Node.find_match,
      stylesheet.Node.getChild, stylesheet.Node.children, stylesheet.Node.segment,
      stylesheet.lookupChild]
    rw [if_neg hseg]
    simp only [reduceCtorEq, if_false, if_true, eq_self_iff_true,
      stylesheet.lookupChild]
    rw [ih (.Name p) (fun hh => stylesheet.Segment.noConfusion hh), union_none_left]

/-- C2 as amended: for a pattern consisting only of literal segments
registered via `Stylesheet::add` as the stylesheet's only rule, resolving the
path equal to the pattern's segments returns exactly the registered style.
(As originally stated — "regardless of what other rules the stylesheet
contains" — the claim is false; see the counterexample.) -/
theorem claim_C2_literal_exact (parts : List String) (st : Style)
    (h : ∀ p ∈ parts, p ≠ "*" ∧ p ≠ "**") :
    (Stylesheet.new.add parts st).get parts = some st := by
  have hmap : parts.map parseSegment = parts.map stylesheet.Segment.Name := by
    apply List.map_congr_left
    intro p hp
    obtain ⟨h1, h2⟩ := h p hp
    unfold parseSegment
    rw [if_neg h2, if_neg h1]
  show ((stylesheet.Node.new .Root).add (parts.map parseSegment) st).find parts
      = some st
  rw [hmap]
  exact literal_chain_find parts st .Root (fun hh => stylesheet.Segment.noConfusion hh)

/-- Witness for C2 as amended at the two-segment literal pattern
`["alpha","beta"]`. -/
theorem claim_C2_witness :
    (∀ p ∈ ["alpha", "beta"], p ≠ "*" ∧ p ≠ "**") ∧
    (Stylesheet.new.add ["alpha", "beta"] ⟨some true, none, none, none, none⟩).get
        ["alpha", "beta"] = some ⟨some true, none, none, none, none⟩ :=
  ⟨by decide, claim_C2_literal_exact _ _ (by decide)⟩

/-- Counterexample for C3 as stated: the unbalanced document consisting of a
single `OpenSection("x")` with no matching `CloseSection` does not make the
writer pass fail — `write_with` completes and returns `Ok`, emitting its
output (the initial sink reset). -/
theorem claim_C3_counterexample :
    (Document.mk (some [Node.OpenSection "x"])).write_with Stylesheet.new =
      .ok [WriteEvent.reset] := rfl

/-- The write loop succeeds exactly when every `CloseSection` occurs at
positive section depth, and otherwise fails with the `"unbalanced push/pop"`
panic; unmatched `OpenSection`s are never detected. -/
theorem write_go_spec (sheet : Stylesheet) :
    ∀ (nodes : List Node) (stack : List String) (acc : List WriteEvent),
      (closeOk stack.length nodes = true ∧
        ∃ evs, write_go sheet nodes stack acc = .ok evs) ∨
      (closeOk stack.length nodes = false ∧
        write_go sheet nodes stack acc = .error "unbalanced push/pop") := by
  intro nodes
  induction nodes with
  | nil => intro stack acc; exact .inl ⟨rfl, acc, rfl⟩
  | cons n rest ih =>
    intro stack acc
    cases n with
    | Text s =>
      simp only [write_go, closeOk]
      split
      · exact ih stack _
      · exact ih stack _
    | OpenSection name => exact ih (name :: stack) acc
    | CloseSection =>
      cases stack with
      | nil => exact .inr ⟨rfl, rfl⟩
      | cons top stack2 => exact ih stack2 acc
    | Newline => exact ih stack _

/-- C3 as amended: the writer pass fails fast with the
`"unbalanced push/pop"` diagnostic exactly on a stray `CloseSection`
(one reached while the section stack is empty); a document whose
`CloseSection`s are all covered completes with `Ok` even when it contains
`OpenSection`s with no matching `CloseSection` — that half of the original
claim does not hold (see the counterexample). -/
theorem claim_C3_writer_imbalance (nodes : List Node) (sheet : Stylesheet) :
    (closeOk 0 nodes = false →
      (Document.mk (some nodes)).write_with sheet = .error "unbalanced push/pop") ∧
    (closeOk 0 nodes = true →
      ∃ evs, (Document.mk (some nodes)).write_with sheet = .ok evs) := by
  have h := write_go_spec sheet nodes [] [WriteEvent.reset]
  simp only [List.length_nil] at h
  constructor
  · intro hfalse
    rcases h with ⟨htrue, _⟩ | ⟨_, herr⟩
    · rw [hfalse] at htrue
      exact Bool.noConfusion htrue
    · exact herr
  · intro htrue
    rcases h with ⟨_, hok⟩ | ⟨hfalse, _⟩
    · exact hok
    · rw [htrue] at hfalse
      exact Bool.noConfusion hfalse

/-- Witness for C3 as amended: a stray `CloseSection` fails with the panic
message, while a lone unmatched `OpenSection("x")` completes with `Ok`. -/
theorem claim_C3_witness :
    (closeOk 0 [Node.CloseSection] = false ∧
      (Document.mk (some [Node.CloseSection])).write_with Stylesheet.new =
        .error "unbalanced push/pop") ∧
    (closeOk 0 [Node.OpenSection "x"] = true ∧
      ∃ evs, (Document.mk (some [Node.OpenSection "x"])).write_with Stylesheet.new =
        .ok evs) :=
  ⟨⟨rfl, (claim_C3_writer_imbalance [Node.CloseSection] Stylesheet.new).1 rfl⟩,
    ⟨rfl, (claim_C3_writer_imbalance [Node.OpenSection "x"] Stylesheet.new).2 rfl⟩⟩

end Codespan
